import Mathlib

/-!
Verification development for the subset-C parser of `tests/c.py`.

The repository instantiates a packrat parser-combinator grammar (pyparsing)
with a subset-C grammar.  The grammar itself (terminals, operator table,
statement and declaration rules, their ordering, and the commit points) is
translated here directly from `tests/c.py`.  The combinator engine that the
grammar runs on (whitespace/comment skipping, keyword word boundaries,
ordered choice, greedy option, commit-after-keyword hard errors, precedence
levels with associativity, and the packrat memo table) is not part of the
repository sources, so it is modelled from the specification (sections 4.1
to 4.5 and 7): rules are functions from an input position to a parse
outcome, which is either a success with value and next position, a soft
mismatch at a position (the caller may backtrack), or a hard syntax error
at a position (aborts the whole parse).

Recursion is by explicit fuel; all definitions are executable and reduce in
the kernel, so concrete inputs can be settled by `rfl`.
-/

namespace SubsetC

/-- Modelled from the spec: a ParseResult is either a success holding the
tree and the next unconsumed offset, a soft mismatch at a position
(backtrackable, section 7 SoftMismatch), or a hard syntax error at a
position (section 7 HardSyntaxError / IncompleteParseError). -/
inductive PRes (α : Type) where
  | ok (val : α) (next : Nat)
  | fail (pos : Nat)
  | err (pos : Nat)
  deriving Repr, DecidableEq

/-- Sequencing: run the continuation on success, propagate mismatch/error. -/
def PRes.andThen {α β : Type} (r : PRes α) (f : α → Nat → PRes β) : PRes β :=
  match r with
  | .ok a p => f a p
  | .fail p => .fail p
  | .err p => .err p

/-- Ordered choice: a soft mismatch tries the next alternative, success and
hard errors are final (spec section 4.3: first match wins; hard errors
propagate through the alternative list). -/
def PRes.orElseR {α : Type} (r : PRes α) (f : Unit → PRes α) : PRes α :=
  match r with
  | .fail _ => f ()
  | r => r

/-- Commit point (the pyparsing `-` operator in `tests/c.py`): once the
keyword before the commit has matched, a soft mismatch in the remainder is
promoted to a hard error at the same position. -/
def PRes.commit {α : Type} (r : PRes α) : PRes α :=
  match r with
  | .fail p => .err p
  | r => r

/-! Character classes of the lexical tier (`tests/c.py` lines 89-95:
whitespace skipping, `pp.Keyword`, `pp.Word(alphas + "_", alphanums + "_")`,
`pp.Regex`).  `charAt` reads past-the-end positions as the NUL character,
which belongs to no class. -/

def charAt (s : List Char) (pos : Nat) : Char :=
  s.getD pos (Char.ofNat 0)

def isWsChar (c : Char) : Bool :=
  c = ' ' || c = '\t' || c = '\n' || c = '\r'

def isAlphaChar (c : Char) : Bool :=
  ('a' ≤ c && c ≤ 'z') || ('A' ≤ c && c ≤ 'Z')

def isDigitChar (c : Char) : Bool :=
  '0' ≤ c && c ≤ '9'

def isIdentStart (c : Char) : Bool :=
  isAlphaChar c || c = '_'

def isIdentChar (c : Char) : Bool :=
  isAlphaChar c || isDigitChar c || c = '_'

/-- Word-boundary characters of `pp.Keyword` (identifier characters plus
the dollar sign, pyparsing's default keyword charset). -/
def isKwBodyChar (c : Char) : Bool :=
  isIdentChar c || c = '$'

/-- Scan for the closing `*/` of a C-style comment; returns the position
just after it, or `none` if the comment is unterminated. -/
def commentEnd (s : List Char) : Nat → Nat → Option Nat
  | 0, _ => none
  | fuel + 1, pos =>
    if pos + 1 < s.length then
      if charAt s pos = '*' && charAt s (pos + 1) = '/' then some (pos + 2)
      else commentEnd s fuel (pos + 1)
    else none

/-- Skip whitespace and C-style comments (`program.ignore(pp.c_style_comment)`
in `tests/c.py` line 150); performed before every terminal match. -/
def skipIgn (s : List Char) : Nat → Nat → Nat
  | 0, pos => pos
  | fuel + 1, pos =>
    if pos < s.length && isWsChar (charAt s pos) then
      skipIgn s fuel (pos + 1)
    else if charAt s pos = '/' && charAt s (pos + 1) = '*' && pos + 1 < s.length then
      match commentEnd s s.length (pos + 2) with
      | some q => skipIgn s fuel q
      | none => pos
    else pos

def skipAll (s : List Char) (pos : Nat) : Nat :=
  skipIgn s (s.length + 1) pos

/-- Does the literal occur in `s` starting exactly at `pos`? -/
def litAt (s : List Char) (pos : Nat) (lit : List Char) : Bool :=
  lit.isPrefixOf (s.drop pos)

/-- Literal token (the suppressed punctuation and operator literals of
`tests/c.py` line 89): skip ignorables, then match the exact characters. -/
def pSym (lit : String) (s : List Char) (pos : Nat) : PRes Unit :=
  let q := skipAll s pos
  if litAt s q lit.toList then .ok () (q + lit.length) else .fail q

/-- Keyword token (`pp.Keyword`, `tests/c.py` line 90): the literal must
match and must not abut a keyword-body character on either side. -/
def pKeyword (kw : String) (s : List Char) (pos : Nat) : PRes String :=
  let q := skipAll s pos
  if litAt s q kw.toList
      && !isKwBodyChar (charAt s (q + kw.length))
      && (decide (q = 0) || !isKwBodyChar (charAt s (q - 1))) then
    .ok kw (q + kw.length)
  else .fail q

def takeWhileClass (cl : Char → Bool) (s : List Char) : Nat → Nat → Nat
  | 0, pos => pos
  | fuel + 1, pos =>
    if pos < s.length && cl (charAt s pos) then
      takeWhileClass cl s fuel (pos + 1)
    else pos

/-- Identifier token (`NAME = pp.Word(pp.alphas + "_", pp.alphanums + "_")`,
`tests/c.py` line 92): a leading alpha or underscore, then a maximal run of
identifier characters.  Keywords are not excluded here. -/
def pName (s : List Char) (pos : Nat) : PRes String :=
  let q := skipAll s pos
  if q < s.length && isIdentStart (charAt s q) then
    let e := takeWhileClass isIdentChar s s.length (q + 1)
    .ok (String.mk ((s.drop q).take (e - q))) e
  else .fail q

def digitsVal (ds : List Char) : Nat :=
  ds.foldl (fun a c => a * 10 + (c.toNat - '0'.toNat)) 0

/-- Integer literal (`integer = pp.Regex(r"[+-]?\d+")`, `tests/c.py` line
93): an optional leading sign, then a maximal nonempty run of digits. -/
def pInteger (s : List Char) (pos : Nat) : PRes Int :=
  let q := skipAll s pos
  let sq : Int × Nat :=
    if charAt s q = '-' then (-1, q + 1)
    else if charAt s q = '+' then (1, q + 1)
    else (1, q)
  if sq.2 < s.length && isDigitChar (charAt s sq.2) then
    let e := takeWhileClass isDigitChar s s.length (sq.2 + 1)
    .ok (sq.1 * Int.ofNat (digitsVal ((s.drop sq.2).take (e - sq.2)))) e
  else .fail q

/-- Character literal (`char = pp.Regex(r"'.'")`, `tests/c.py` line 94):
exactly a quote, any single non-newline character, and a quote. -/
def pCharLit (s : List Char) (pos : Nat) : PRes Char :=
  let q := skipAll s pos
  if charAt s q = '\'' && charAt s (q + 2) = '\'' && q + 2 < s.length
      && !(charAt s (q + 1) = '\n') then
    .ok (charAt s (q + 1)) (q + 3)
  else .fail q

def dqEnd (s : List Char) : Nat → Nat → Option Nat
  | 0, _ => none
  | fuel + 1, pos =>
    if pos < s.length then
      if charAt s pos = '"' then some (pos + 1)
      else if charAt s pos = '\\' && pos + 1 < s.length then dqEnd s fuel (pos + 2)
      else dqEnd s fuel (pos + 1)
    else none

/-- String literal (`string_ = pp.dbl_quoted_string`, `tests/c.py` line
95): double quotes around content in which a backslash escapes the next
character; the raw text including quotes is kept as the token value. -/
def pStringLit (s : List Char) (pos : Nat) : PRes String :=
  let q := skipAll s pos
  if charAt s q = '"' then
    match dqEnd s s.length (q + 1) with
    | some e => .ok (String.mk ((s.drop q).take (e - q))) e
    | none => .fail q
  else .fail q

/-- Operator matcher for a `pp.one_of` level of the table in `tests/c.py`
lines 104-109: skip ignorables, then take the first alternative that
matches literally (lists are ordered longest-first as `one_of` does). -/
def matchOps (ops : List String) (s : List Char) (pos : Nat) : Option (String × Nat) :=
  let q := skipAll s pos
  match ops.find? (fun op => litAt s q op.toList) with
  | some op => some (op, q + op.length)
  | none => none

/-- The assignment operator of `tests/c.py` line 110,
`pp.Regex(r"(?<!=)=(?!=)")`: a single `=` neither preceded nor followed by
another `=`. -/
def matchAssignOp (s : List Char) (pos : Nat) : Option (String × Nat) :=
  let q := skipAll s pos
  if charAt s q = '=' && !(charAt s (q + 1) = '=')
      && (decide (q = 0) || !(charAt s (q - 1) = '=')) then
    some ("=", q + 1)
  else none

/-! The AST (spec section 3): expression variants, statements, types and
declarations. -/

inductive Expr where
  | name (id : String)
  | intLit (n : Int)
  | charLit (c : Char)
  | strLit (raw : String)
  | unOp (op : String) (e : Expr)
  | postOp (op : String) (e : Expr)
  | binOp (op : String) (l r : Expr)
  | index (base idx : Expr)
  | call (callee : Expr) (args : List Expr)
  deriving Repr

inductive Stmt where
  | ifS (cond : Expr) (thenS : Stmt) (elseS : Option Stmt)
  | whileS (cond : Expr) (body : Stmt)
  | doWhileS (body : Stmt) (cond : Expr)
  | ret (e : Expr)
  | exprS (e : Expr)
  | block (stmts : List Stmt)
  | empty
  deriving Repr

/-- A subset-C type: base keyword (`int` or `char`) and pointer depth
(`TYPE = pp.Group((INT | CHAR) + pp.ZeroOrMore("*"))`, line 97). -/
structure CType where
  base : String
  stars : Nat
  deriving Repr, DecidableEq

structure Param where
  ty : CType
  nm : String
  deriving Repr, DecidableEq

structure VarDecl where
  ty : CType
  nm : String
  arraySize : Option Int
  deriving Repr, DecidableEq

inductive Decl where
  | varD (v : VarDecl)
  | funD (ty : CType) (nm : String) (params : List Param)
      (localVars : List VarDecl) (body : List Stmt)
  deriving Repr

/-! The expression engine, `tests/c.py` lines 98-114.

`expr <<= pp.infix_notation(operand, table) + pp.Optional(subscript | call)`
with `operand = func_call | NAME | integer | char | string_`.  The engine
(modelled from spec section 4.2) is precedence climbing: every level takes
the next-tighter level as its element; a LEFT-associative binary level
folds its chain to the left, prefix levels recurse to the right, the
postfix level folds to the left.  The bottom element is an operand or a
parenthesized full precedence expression (but not a suffix expression:
the trailing subscript/call is outside the parenthesized production).

Recursion is tied through a fuel-indexed bundle `EP`; from fuel `n + 1`
every sub-rule is invoked at fuel `n`. -/

def pre1Ops : List String := ["!", "-", "*"]
def pre2Ops : List String := ["++", "--"]
def postOps : List String := ["++", "--"]
def mulOps : List String := ["*", "/", "%"]
def addOps : List String := ["+", "-"]
def relOps : List String := ["<=", ">=", "==", "!=", "<", ">"]

/-- The bundle of expression sub-parsers at one fuel level. -/
structure EP where
  expr : Nat → PRes Expr
  prec : Nat → PRes Expr
  chAssign : Expr → Nat → PRes Expr
  rel : Nat → PRes Expr
  chRel : Expr → Nat → PRes Expr
  add : Nat → PRes Expr
  chAdd : Expr → Nat → PRes Expr
  mul : Nat → PRes Expr
  chMul : Expr → Nat → PRes Expr
  post : Nat → PRes Expr
  poLoop : Expr → Nat → PRes Expr
  pre2 : Nat → PRes Expr
  pre1 : Nat → PRes Expr
  prim : Nat → PRes Expr
  fcall : Nat → PRes Expr
  args : Nat → PRes (List Expr)
  argsLoop : List Expr → Nat → PRes (List Expr)

/-- Out-of-fuel bundle: parsers mismatch; chain loops return their
accumulator unchanged. -/
def epZero : EP where
  expr := fun pos => .fail pos
  prec := fun pos => .fail pos
  chAssign := fun acc pos => .ok acc pos
  rel := fun pos => .fail pos
  chRel := fun acc pos => .ok acc pos
  add := fun pos => .fail pos
  chAdd := fun acc pos => .ok acc pos
  mul := fun pos => .fail pos
  chMul := fun acc pos => .ok acc pos
  post := fun pos => .fail pos
  poLoop := fun acc pos => .ok acc pos
  pre2 := fun pos => .fail pos
  pre1 := fun pos => .fail pos
  prim := fun pos => .fail pos
  fcall := fun pos => .fail pos
  args := fun pos => .fail pos
  argsLoop := fun acc pos => .ok acc pos

def mkEP (s : List Char) : Nat → EP
  | 0 => epZero
  | fuel + 1 =>
    let prev := mkEP s fuel
    { expr := fun pos =>
        (prev.prec pos).andThen fun e p =>
          match pSym "[" s p with
          | .ok _ p1 =>
            (match (prev.expr p1).andThen fun i p2 =>
                (pSym "]" s p2).andThen fun _ p3 => .ok (Expr.index e i) p3 with
             | .ok v q => .ok v q
             | _ =>
               match pSym "(" s p with
               | .ok _ q1 =>
                 (match (prev.args q1).andThen fun as q2 =>
                     (pSym ")" s q2).andThen fun _ q3 => .ok (Expr.call e as) q3 with
                  | .ok v q => .ok v q
                  | _ => .ok e p)
               | _ => .ok e p)
          | _ =>
            match pSym "(" s p with
            | .ok _ q1 =>
              (match (prev.args q1).andThen fun as q2 =>
                  (pSym ")" s q2).andThen fun _ q3 => .ok (Expr.call e as) q3 with
               | .ok v q => .ok v q
               | _ => .ok e p)
            | _ => .ok e p,
      prec := fun pos => (prev.rel pos).andThen fun e p => prev.chAssign e p,
      chAssign := fun acc pos =>
        match matchAssignOp s pos with
        | some (op, p) =>
          (match prev.rel p with
           | .ok r p2 => prev.chAssign (Expr.binOp op acc r) p2
           | _ => .ok acc pos)
        | none => .ok acc pos,
      rel := fun pos => (prev.add pos).andThen fun e p => prev.chRel e p,
      chRel := fun acc pos =>
        match matchOps relOps s pos with
        | some (op, p) =>
          (match prev.add p with
           | .ok r p2 => prev.chRel (Expr.binOp op acc r) p2
           | _ => .ok acc pos)
        | none => .ok acc pos,
      add := fun pos => (prev.mul pos).andThen fun e p => prev.chAdd e p,
      chAdd := fun acc pos =>
        match matchOps addOps s pos with
        | some (op, p) =>
          (match prev.mul p with
           | .ok r p2 => prev.chAdd (Expr.binOp op acc r) p2
           | _ => .ok acc pos)
        | none => .ok acc pos,
      mul := fun pos => (prev.post pos).andThen fun e p => prev.chMul e p,
      chMul := fun acc pos =>
        match matchOps mulOps s pos with
        | some (op, p) =>
          (match prev.post p with
           | .ok r p2 => prev.chMul (Expr.binOp op acc r) p2
           | _ => .ok acc pos)
        | none => .ok acc pos,
      post := fun pos => (prev.pre2 pos).andThen fun e p => prev.poLoop e p,
      poLoop := fun acc pos =>
        match matchOps postOps s pos with
        | some (op, p) => prev.poLoop (Expr.postOp op acc) p
        | none => .ok acc pos,
      pre2 := fun pos =>
        match matchOps pre2Ops s pos with
        | some (op, p) =>
          (match prev.pre2 p with
           | .ok e p1 => .ok (Expr.unOp op e) p1
           | _ => prev.pre1 pos)
        | none => prev.pre1 pos,
      pre1 := fun pos =>
        match matchOps pre1Ops s pos with
        | some (op, p) =>
          (match prev.pre1 p with
           | .ok e p1 => .ok (Expr.unOp op e) p1
           | _ => prev.prim pos)
        | none => prev.prim pos,
      prim := fun pos =>
        match prev.fcall pos with
        | .ok e p => .ok e p
        | _ =>
          match pName s pos with
          | .ok n p => .ok (Expr.name n) p
          | _ =>
            match pInteger s pos with
            | .ok n p => .ok (Expr.intLit n) p
            | _ =>
              match pCharLit s pos with
              | .ok c p => .ok (Expr.charLit c) p
              | _ =>
                match pStringLit s pos with
                | .ok str p => .ok (Expr.strLit str) p
                | _ =>
                  match pSym "(" s pos with
                  | .ok _ p =>
                    (match prev.prec p with
                     | .ok e p1 =>
                       (match pSym ")" s p1 with
                        | .ok _ p2 => .ok e p2
                        | _ => .fail p1)
                     | _ => .fail p)
                  | _ => .fail (skipAll s pos),
      fcall := fun pos =>
        (pName s pos).andThen fun n p =>
          (pSym "(" s p).andThen fun _ p1 =>
            (prev.args p1).andThen fun as p2 =>
              (pSym ")" s p2).andThen fun _ p3 =>
                .ok (Expr.call (Expr.name n) as) p3,
      args := fun pos =>
        match prev.expr pos with
        | .ok e p => prev.argsLoop [e] p
        | .err q => .err q
        | .fail _ => .ok [] pos,
      argsLoop := fun acc pos =>
        match pSym "," s pos with
        | .ok _ p =>
          (match prev.expr p with
           | .ok e p2 => prev.argsLoop (acc ++ [e]) p2
           | _ => .ok acc pos)
        | _ => .ok acc pos }

/-- Fuel budget ample for any parse of `s` (call depth is linear in the
input length with a small constant). -/
def progFuel (s : List Char) : Nat := 16 * s.length + 64

/-- The full expression rule `expr` of `tests/c.py` lines 101-114, applied
at a position. -/
def exprP (s : List Char) (fuel pos : Nat) : PRes Expr :=
  (mkEP s fuel).expr pos

/-- Parse a string as one complete expression: the `expr` rule must consume
the entire input (up to trailing ignorables). -/
def parseExprFull (str : String) : Option Expr :=
  let s := str.toList
  match exprP s (progFuel s) 0 with
  | .ok e p => if s.length ≤ skipAll s p then some e else none
  | _ => none

/-! The statement engine, `tests/c.py` lines 116-131.  Alternatives are
tried in source order; each keyworded rule commits just after its keyword
(the pyparsing `-`), so a mismatch in the remainder is a hard error. -/

/-- `ifstmt = IF - LPAR + expr + RPAR + stmt + pp.Optional(ELSE + stmt)`
(`tests/c.py` line 118).  The optional `else` trailer is greedy; its inner
failure after `else` backtracks softly (no commit inside the option), while
a hard error below it propagates. -/
def ifStmtA (s : List Char) (pe : Nat → PRes Expr) (pst : Nat → PRes Stmt)
    (pos : Nat) : PRes Stmt :=
  match pKeyword "if" s pos with
  | .ok _ p =>
    PRes.commit
      ((pSym "(" s p).andThen fun _ p1 =>
        (pe p1).andThen fun c p2 =>
          (pSym ")" s p2).andThen fun _ p3 =>
            (pst p3).andThen fun t p4 =>
              match pKeyword "else" s p4 with
              | .ok _ p5 =>
                (match pst p5 with
                 | .ok e p6 => .ok (Stmt.ifS c t (some e)) p6
                 | .err q => .err q
                 | .fail _ => .ok (Stmt.ifS c t none) p4)
              | _ => .ok (Stmt.ifS c t none) p4)
  | .err q => .err q
  | .fail q => .fail q

/-- `whilestmt = WHILE - LPAR + expr + RPAR + stmt` (`tests/c.py` line 119). -/
def whileStmtA (s : List Char) (pe : Nat → PRes Expr) (pst : Nat → PRes Stmt)
    (pos : Nat) : PRes Stmt :=
  match pKeyword "while" s pos with
  | .ok _ p =>
    PRes.commit
      ((pSym "(" s p).andThen fun _ p1 =>
        (pe p1).andThen fun c p2 =>
          (pSym ")" s p2).andThen fun _ p3 =>
            (pst p3).andThen fun b p4 => .ok (Stmt.whileS c b) p4)
  | .err q => .err q
  | .fail q => .fail q

/-- `dowhilestmt = DO - stmt + WHILE + LPAR + expr + RPAR + SEMI`
(`tests/c.py` line 120). -/
def doWhileStmtA (s : List Char) (pe : Nat → PRes Expr) (pst : Nat → PRes Stmt)
    (pos : Nat) : PRes Stmt :=
  match pKeyword "do" s pos with
  | .ok _ p =>
    PRes.commit
      ((pst p).andThen fun b p1 =>
        (pKeyword "while" s p1).andThen fun _ p2 =>
          (pSym "(" s p2).andThen fun _ p3 =>
            (pe p3).andThen fun c p4 =>
              (pSym ")" s p4).andThen fun _ p5 =>
                (pSym ";" s p5).andThen fun _ p6 => .ok (Stmt.doWhileS b c) p6)
  | .err q => .err q
  | .fail q => .fail q

/-- `returnstmt = RETURN - expr + SEMI` (`tests/c.py` line 121). -/
def returnStmtA (s : List Char) (pe : Nat → PRes Expr) (pos : Nat) : PRes Stmt :=
  match pKeyword "return" s pos with
  | .ok _ p =>
    PRes.commit
      ((pe p).andThen fun e p1 =>
        (pSym ";" s p1).andThen fun _ p2 => .ok (Stmt.ret e) p2)
  | .err q => .err q
  | .fail q => .fail q

/-- The `expr + SEMI` statement alternative (`tests/c.py` line 128); no
commit point, so its failures stay soft. -/
def exprStmtA (s : List Char) (pe : Nat → PRes Expr) (pos : Nat) : PRes Stmt :=
  (pe pos).andThen fun e p =>
    (pSym ";" s p).andThen fun _ p1 => .ok (Stmt.exprS e) p1

/-- The statement-recursion bundle at one fuel level: the `stmt` rule and
the `pp.ZeroOrMore(stmt)` loop (used by blocks and by function bodies). -/
structure SP where
  stmt : Nat → PRes Stmt
  sloop : List Stmt → Nat → PRes (List Stmt)

def spZero : SP where
  stmt := fun pos => .fail pos
  sloop := fun acc pos => .ok acc pos

/-- `stmt` (`tests/c.py` lines 123-131): ordered choice of
`ifstmt | whilestmt | dowhilestmt | returnstmt | expr ; | { stmt* } | ;`.
A hard error from a committed alternative aborts the choice. -/
def mkSP (s : List Char) : Nat → SP
  | 0 => spZero
  | fuel + 1 =>
    let prev := mkSP s fuel
    let pe : Nat → PRes Expr := fun pos => exprP s fuel pos
    { stmt := fun pos =>
        (ifStmtA s pe prev.stmt pos).orElseR fun _ =>
          (whileStmtA s pe prev.stmt pos).orElseR fun _ =>
            (doWhileStmtA s pe prev.stmt pos).orElseR fun _ =>
              (returnStmtA s pe pos).orElseR fun _ =>
                (exprStmtA s pe pos).orElseR fun _ =>
                  (match pSym "\x7b" s pos with
                   | .ok _ p =>
                     (prev.sloop [] p).andThen fun ss p1 =>
                       (pSym "\x7d" s p1).andThen fun _ p2 =>
                         .ok (Stmt.block ss) p2
                   | .err q => .err q
                   | .fail _ =>
                     (pSym ";" s pos).andThen fun _ p => .ok Stmt.empty p),
      sloop := fun acc pos =>
        match prev.stmt pos with
        | .ok st p => prev.sloop (acc ++ [st]) p
        | .err q => .err q
        | .fail _ => .ok acc pos }

/-- The `stmt` rule applied at a position. -/
def stmtP (s : List Char) (fuel pos : Nat) : PRes Stmt :=
  (mkSP s fuel).stmt pos

/-- Apply the `stmt` rule to a whole string (result with positions). -/
def parseStmtRes (str : String) : PRes Stmt :=
  let s := str.toList
  stmtP s (progFuel s) 0

/-- Parse a string as one complete statement (entire input consumed). -/
def parseStmtFull (str : String) : Option Stmt :=
  let s := str.toList
  match stmtP s (progFuel s) 0 with
  | .ok st p => if s.length ≤ skipAll s p then some st else none
  | _ => none

/-- The `expr + SEMI` alternative applied alone to a whole string (used to
contrast soft backtracking with the committed keyword rules). -/
def parseExprStmtRes (str : String) : PRes Stmt :=
  let s := str.toList
  exprStmtA s (fun pos => exprP s (progFuel s) pos) 0

/-! The declaration engine and the program rule, `tests/c.py` lines
133-150. -/

/-- Count the pointer stars of a type (`pp.ZeroOrMore("*")`). -/
def starsLoop (s : List Char) : Nat → Nat → Nat × Nat
  | 0, pos => (0, pos)
  | fuel + 1, pos =>
    match pSym "*" s pos with
    | .ok _ p =>
      let np := starsLoop s fuel p
      (np.1 + 1, np.2)
    | _ => (0, pos)

/-- `TYPE = pp.Group((INT | CHAR) + pp.ZeroOrMore("*"))` (`tests/c.py`
line 97): keyword `int` or `char`, then pointer stars. -/
def parseTYPE (s : List Char) (pos : Nat) : PRes CType :=
  ((pKeyword "int" s pos).orElseR fun _ => pKeyword "char" s pos).andThen
    fun b p =>
      let np := starsLoop s s.length p
      .ok ⟨b, np.1⟩ np.2

/-- `vardecl = pp.Group(TYPE + NAME + pp.Optional(LBRACK + integer +
RBRACK)) + SEMI` (`tests/c.py` line 133).  The array-size slot reuses the
signed `integer` token.  No commit point: every failure is soft. -/
def parseVarDeclF (s : List Char) (pos : Nat) : PRes VarDecl :=
  (parseTYPE s pos).andThen fun ty p =>
    (pName s p).andThen fun nm p1 =>
      let szp : Option Int × Nat :=
        match pSym "[" s p1 with
        | .ok _ q1 =>
          (match pInteger s q1 with
           | .ok n q2 =>
             (match pSym "]" s q2 with
              | .ok _ q3 => (some n, q3)
              | _ => (none, p1))
           | _ => (none, p1))
        | _ => (none, p1)
      (pSym ";" s szp.2).andThen fun _ p2 => .ok ⟨ty, nm, szp.1⟩ p2

/-- `arg = pp.Group(TYPE + NAME)` (`tests/c.py` line 135). -/
def parseParamF (s : List Char) (pos : Nat) : PRes Param :=
  (parseTYPE s pos).andThen fun ty p =>
    (pName s p).andThen fun nm p1 => .ok ⟨ty, nm⟩ p1

def paramsLoop (s : List Char) : Nat → List Param → Nat → PRes (List Param)
  | 0, acc, pos => .ok acc pos
  | fuel + 1, acc, pos =>
    match pSym "," s pos with
    | .ok _ p =>
      (match parseParamF s p with
       | .ok a p1 => paramsLoop s fuel (acc ++ [a]) p1
       | _ => .ok acc pos)
    | _ => .ok acc pos

/-- `pp.Optional(pp.Group(pp.DelimitedList(arg)))` (`tests/c.py` line 141). -/
def parseParams (s : List Char) (pos : Nat) : PRes (List Param) :=
  match parseParamF s pos with
  | .ok a p => paramsLoop s s.length [a] p
  | _ => .ok [] pos

def varsLoop (s : List Char) : Nat → List VarDecl → Nat → PRes (List VarDecl)
  | 0, acc, pos => .ok acc pos
  | fuel + 1, acc, pos =>
    match parseVarDeclF s pos with
    | .ok v p => varsLoop s fuel (acc ++ [v]) p
    | _ => .ok acc pos

/-- `fundecl` (`tests/c.py` lines 137-146): type, name, parenthesized
parameter list, then a braced body of `pp.ZeroOrMore(vardecl) +
pp.ZeroOrMore(stmt)` (`body`, line 136). -/
def parseFunDeclF (s : List Char) (fuel pos : Nat) : PRes Decl :=
  (parseTYPE s pos).andThen fun ty p =>
    (pName s p).andThen fun nm p1 =>
      (pSym "(" s p1).andThen fun _ p2 =>
        (parseParams s p2).andThen fun ps p3 =>
          (pSym ")" s p3).andThen fun _ p4 =>
            (pSym "\x7b" s p4).andThen fun _ p5 =>
              (varsLoop s s.length [] p5).andThen fun vs p6 =>
                ((mkSP s fuel).sloop [] p6).andThen fun body p7 =>
                  (pSym "\x7d" s p7).andThen fun _ p8 =>
                    .ok (Decl.funD ty nm ps vs body) p8

/-- `decl = fundecl | vardecl` (`tests/c.py` line 147): `fundecl` is tried
first; both begin with `TYPE NAME`, so disambiguation happens by
backtracking at the `(` versus `;`/`[` boundary. -/
def parseDeclF (s : List Char) (fuel pos : Nat) : PRes Decl :=
  (parseFunDeclF s fuel pos).orElseR fun _ =>
    (parseVarDeclF s pos).andThen fun v p => .ok (Decl.varD v) p

/-- `program = pp.ZeroOrMore(decl)` (`tests/c.py` line 148). -/
def declsLoop (s : List Char) : Nat → List Decl → Nat → PRes (List Decl)
  | 0, acc, pos => .ok acc pos
  | fuel + 1, acc, pos =>
    match parseDeclF s fuel pos with
    | .ok d p => declsLoop s fuel (acc ++ [d]) p
    | .err q => .err q
    | .fail _ => .ok acc pos

/-- The declaration phase of a top-level parse: `pp.ZeroOrMore(decl)`
starting at offset 0 with the standard fuel budget. -/
def parseDeclsPhase (s : List Char) : PRes (List Decl) :=
  declsLoop s (progFuel s) [] 0

/-- Top-level parse, `program.parse_string(text, parseAll=True)`
(`tests/c.py` line 214): after the declarations, trailing ignorables are
skipped and any unconsumed character is an incomplete-parse error carrying
its offset. -/
def parseProgramL (s : List Char) : PRes (List Decl) :=
  match parseDeclsPhase s with
  | .ok ds p =>
    let q := skipAll s p
    if s.length ≤ q then .ok ds q else .err q
  | .fail p => .fail p
  | .err p => .err p

def parseProgramStr (str : String) : PRes (List Decl) :=
  parseProgramL str.toList

/-- Top-level parse, keeping only the resulting AST. -/
def parseProgramOk (str : String) : Option (List Decl) :=
  match parseProgramStr str with
  | .ok ds _ => some ds
  | _ => none

/-! Chain collectors.  `collectAssign` (resp. `collectRel`) runs the same
iteration as the `chAssign` (resp. `chRel`) loop of `mkEP` but returns the
list of `(operator, right operand)` pairs it consumes instead of folding
them into a tree; it is the reference against which the left-fold shape of
the loop is proved. -/

def collectAssign (s : List Char) : Nat → Nat → List (String × Expr) × Nat
  | 0, pos => ([], pos)
  | fuel + 1, pos =>
    match matchAssignOp s pos with
    | some (op, p) =>
      (match (mkEP s fuel).rel p with
       | .ok r p2 =>
         let pq := collectAssign s fuel p2
         ((op, r) :: pq.1, pq.2)
       | _ => ([], pos))
    | none => ([], pos)

def collectRel (s : List Char) : Nat → Nat → List (String × Expr) × Nat
  | 0, pos => ([], pos)
  | fuel + 1, pos =>
    match matchOps relOps s pos with
    | some (op, p) =>
      (match (mkEP s fuel).add p with
       | .ok r p2 =>
         let pq := collectRel s fuel p2
         ((op, r) :: pq.1, pq.2)
       | _ => ([], pos))
    | none => ([], pos)

/-- Fold one `(operator, right operand)` chain step into the accumulated
left operand: this is the left-associative grouping discipline. -/
def foldBin (acc : Expr) (ps : List (String × Expr)) : Expr :=
  ps.foldl (fun a pr => Expr.binOp pr.1 a pr.2) acc

/-! Serialization.  Modelled from the spec: section 8 posits a `serialize`
such that reparsing a serialized AST reproduces the AST ("no round-trip
text fidelity required, only AST stability"); no serializer exists in the
repository, so this one emits the subset-C surface syntax, parenthesizing
every interior operator node. -/

def typeStr (t : CType) : String :=
  t.base ++ String.mk (List.replicate t.stars '*')

mutual

def exprStr : Expr → String
  | .name i => i
  | .intLit n => toString n
  | .charLit c => String.mk ['\'', c, '\'']
  | .strLit raw => raw
  | .unOp op e => "(" ++ op ++ " " ++ exprStr e ++ ")"
  | .postOp op e => "(" ++ exprStr e ++ " " ++ op ++ ")"
  | .binOp op l r => "(" ++ exprStr l ++ " " ++ op ++ " " ++ exprStr r ++ ")"
  | .index b i => exprStr b ++ "[" ++ exprStr i ++ "]"
  | .call f as => exprStr f ++ "(" ++ argsStr as ++ ")"

def argsStr : List Expr → String
  | [] => ""
  | [e] => exprStr e
  | e :: es => exprStr e ++ ", " ++ argsStr es

end

mutual

def stmtStr : Stmt → String
  | .ifS c t none => "if (" ++ exprStr c ++ ") " ++ stmtStr t
  | .ifS c t (some e) =>
    "if (" ++ exprStr c ++ ") " ++ stmtStr t ++ " else " ++ stmtStr e
  | .whileS c b => "while (" ++ exprStr c ++ ") " ++ stmtStr b
  | .doWhileS b c => "do " ++ stmtStr b ++ " while (" ++ exprStr c ++ ");"
  | .ret e => "return " ++ exprStr e ++ ";"
  | .exprS e => exprStr e ++ ";"
  | .block ss => "\x7b " ++ stmtsStr ss ++ "\x7d"
  | .empty => ";"

def stmtsStr : List Stmt → String
  | [] => ""
  | st :: ss => stmtStr st ++ " " ++ stmtsStr ss

end

def varDeclStr (v : VarDecl) : String :=
  typeStr v.ty ++ " " ++ v.nm ++
    (match v.arraySize with
     | some n => "[" ++ toString n ++ "]"
     | none => "") ++ ";"

def paramsStr : List Param → String
  | [] => ""
  | [p] => typeStr p.ty ++ " " ++ p.nm
  | p :: ps => typeStr p.ty ++ " " ++ p.nm ++ ", " ++ paramsStr ps

def varDeclsStr : List VarDecl → String
  | [] => ""
  | v :: vs => varDeclStr v ++ " " ++ varDeclsStr vs

def declStr : Decl → String
  | .varD v => varDeclStr v
  | .funD ty nm ps vs body =>
    typeStr ty ++ " " ++ nm ++ "(" ++ paramsStr ps ++ ") \x7b " ++
      varDeclsStr vs ++ stmtsStr body ++ "\x7d"

def programStr : List Decl → String
  | [] => ""
  | [d] => declStr d
  | d :: ds => declStr d ++ " " ++ programStr ds

/-! The packrat memoizer.  Modelled from the spec: section 4.5 (consult the
memo table for `(rule, position)` before attempting a rule; on a miss
invoke the body, store the outcome, return it) and section 3 (MemoKey is
`(rule-identity, start-position)`; at most one ParseResult exists per key
during one top-level parse).  `pp.ParserElement.enablePackrat()`
(`tests/c.py` line 87) lives inside pyparsing, outside the repository
sources.  The state also chronicles, for the proofs, the keys whose rule
body was actually invoked. -/

inductive RuleId where
  | programR | declR | fundeclR | vardeclR | typeR | argR | bodyR
  | stmtR | ifstmtR | whilestmtR | dowhilestmtR | returnstmtR
  | exprR | operandR | funcCallR | nameR | integerR | charR | stringR
  deriving Repr, DecidableEq

/-- A memo key: rule identity and start position (spec section 3). -/
abbrev MemoKey := RuleId × Nat

/-- The memo table plus the chronicle of rule-body invocations, scoped to
one top-level parse call. -/
structure MemoState (ρ : Type) where
  table : List (MemoKey × ρ)
  invoked : List MemoKey

def memoLookup {ρ : Type} (tbl : List (MemoKey × ρ)) (k : MemoKey) : Option ρ :=
  match tbl.find? (fun e => e.1 = k) with
  | some e => some e.2
  | none => none

/-- Modelled from the spec (section 4.5): before attempting rule `k.1` at
position `k.2`, consult the memo table; if present, return the cached
ParseResult without re-invoking the rule body; otherwise invoke the body,
store the outcome, and return it. -/
def applyRule {ρ : Type} (k : MemoKey) (body : Unit → ρ) (st : MemoState ρ) :
    ρ × MemoState ρ :=
  match memoLookup st.table k with
  | some r => (r, st)
  | none =>
    let r := body ()
    (r, ⟨(k, r) :: st.table, k :: st.invoked⟩)

/-- The memoizer invariant: the chronicle of invoked keys is exactly the
key column of the memo table, and no key occurs twice in the table. -/
def MemoInv {ρ : Type} (st : MemoState ρ) : Prop :=
  st.invoked = st.table.map Prod.fst ∧ (st.table.map Prod.fst).Nodup

/-- The source text of the concrete subset-C program used for the
round-trip property. -/
def c9Src : String :=
  "int x; int fac(int n) \x7b if (n == 0) return 1; else return n*fac(n-1); \x7d"

/-- The AST of `c9Src` under the program rule. -/
def c9AST : List Decl :=
  [Decl.varD ⟨⟨"int", 0⟩, "x", none⟩,
   Decl.funD ⟨"int", 0⟩ "fac" [⟨⟨"int", 0⟩, "n"⟩] []
     [Stmt.ifS (Expr.binOp "==" (Expr.name "n") (Expr.intLit 0))
        (Stmt.ret (Expr.intLit 1))
        (some (Stmt.ret
          (Expr.binOp "*" (Expr.name "n")
            (Expr.call (Expr.name "fac")
              [Expr.binOp "-" (Expr.name "n") (Expr.intLit 1)]))))]]

/-! Helper lemmas shared by the claim theorems. -/

theorem chAssign_foldl (s : List Char) :
    ∀ (fuel : Nat) (acc : Expr) (pos : Nat),
      (mkEP s fuel).chAssign acc pos =
        PRes.ok (foldBin acc (collectAssign s fuel pos).1)
          (collectAssign s fuel pos).2 := by
  intro fuel
  induction fuel with
  | zero =>
    intro acc pos
    simp [mkEP, epZero, collectAssign, foldBin]
  | succ n ih =>
    intro acc pos
    simp only [mkEP, collectAssign]
    cases h : matchAssignOp s pos with
    | none => simp [foldBin]
    | some opp =>
      obtain ⟨op, p⟩ := opp
      cases h2 : (mkEP s n).rel p with
      | ok r p2 => simp only [h2]; simp [ih, foldBin]
      | fail q => simp only [h2]; simp [foldBin]
      | err q => simp only [h2]; simp [foldBin]

theorem chRel_foldl (s : List Char) :
    ∀ (fuel : Nat) (acc : Expr) (pos : Nat),
      (mkEP s fuel).chRel acc pos =
        PRes.ok (foldBin acc (collectRel s fuel pos).1)
          (collectRel s fuel pos).2 := by
  intro fuel
  induction fuel with
  | zero =>
    intro acc pos
    simp [mkEP, epZero, collectRel, foldBin]
  | succ n ih =>
    intro acc pos
    simp only [mkEP, collectRel]
    cases h : matchOps relOps s pos with
    | none => simp [foldBin]
    | some opp =>
      obtain ⟨op, p⟩ := opp
      cases h2 : (mkEP s n).add p with
      | ok r p2 => simp only [h2]; simp [ih, foldBin]
      | fail q => simp only [h2]; simp [foldBin]
      | err q => simp only [h2]; simp [foldBin]

theorem pKeyword_ok_boundary (s : List Char) (kw : String) (pos : Nat)
    (v : String) (p' : Nat) (h : pKeyword kw s pos = PRes.ok v p') :
    isKwBodyChar (charAt s p') = false := by
  simp only [pKeyword] at h
  split at h
  · rename_i hc
    injection h with hv hp
    simp only [Bool.and_eq_true] at hc
    subst hp
    simpa using hc.1.2
  · exact absurd h (by simp)

theorem applyRule_cached {ρ : Type} (k : MemoKey) (body : Unit → ρ)
    (st : MemoState ρ) (r : ρ) (h : memoLookup st.table k = some r) :
    applyRule k body st = (r, st) := by
  unfold applyRule
  rw [h]

theorem memoLookup_none_not_mem {ρ : Type} (tbl : List (MemoKey × ρ))
    (k : MemoKey) (h : memoLookup tbl k = none) :
    k ∉ tbl.map Prod.fst := by
  unfold memoLookup at h
  intro hmem
  obtain ⟨e, he, hk⟩ := List.mem_map.mp hmem
  cases hf : tbl.find? (fun e => e.1 = k) with
  | some x => rw [hf] at h; exact absurd h (by simp)
  | none =>
    have := List.find?_eq_none.mp hf e he
    simp [hk] at this

theorem applyRule_preserves_inv {ρ : Type} (k : MemoKey) (body : Unit → ρ)
    (st : MemoState ρ) (h : MemoInv st) : MemoInv (applyRule k body st).2 := by
  unfold applyRule
  cases hl : memoLookup st.table k with
  | some r => exact h
  | none =>
    constructor
    · simp [MemoState.table, h.1]
    · simp only [List.map_cons]
      exact List.Nodup.cons (memoLookup_none_not_mem st.table k hl) h.2

/-! The claim theorems. -/

/-- C1: within one top-level parse, the packrat memoizer stores at most one
ParseResult per (rule-identity, start-position) key and invokes every rule
body at most once per position: a memoized application on a key already in
the table returns the cached result and leaves the state (in particular the
chronicle of body invocations) untouched, and on any state satisfying the
memo invariant an application preserves it — the invoked-keys chronicle
stays exactly the duplicate-free key column of the table, so no key's body
ever runs twice. -/
theorem packrat_memo_at_most_once :
    (∀ (ρ : Type) (k : MemoKey) (body : Unit → ρ) (st : MemoState ρ) (r : ρ),
        memoLookup st.table k = some r → applyRule k body st = (r, st))
    ∧ (∀ (ρ : Type) (k : MemoKey) (body : Unit → ρ) (st : MemoState ρ),
        MemoInv st → MemoInv (applyRule k body st).2
          ∧ ((applyRule k body st).2.invoked).Nodup) :=
  ⟨fun _ k body st r h => applyRule_cached k body st r h,
   fun _ k body st h =>
     have h2 := applyRule_preserves_inv k body st h
     ⟨h2, h2.1 ▸ h2.2⟩⟩

/-- Witness for C1 at a concrete memo state: a second attempt of rule
`expr` at position 0 returns the cached result without touching the state,
and a miss at position 5 preserves the invariant. -/
theorem packrat_memo_at_most_once_witness :
    applyRule (RuleId.exprR, 0) (fun _ => PRes.fail 0)
        (⟨[((RuleId.exprR, 0), PRes.ok (Expr.name "x") 1)],
          [(RuleId.exprR, 0)]⟩ : MemoState (PRes Expr)) =
      (PRes.ok (Expr.name "x") 1,
        ⟨[((RuleId.exprR, 0), PRes.ok (Expr.name "x") 1)], [(RuleId.exprR, 0)]⟩)
    ∧ MemoInv ((applyRule (RuleId.exprR, 5) (fun _ => PRes.fail 5)
        (⟨[((RuleId.exprR, 0), PRes.ok (Expr.name "x") 1)],
          [(RuleId.exprR, 0)]⟩ : MemoState (PRes Expr))).2) :=
  ⟨packrat_memo_at_most_once.1 _ _ _ _ _ rfl,
   (packrat_memo_at_most_once.2 _ _ _ _ ⟨rfl, by simp⟩).1⟩

/-- C2: the assignment operator `=` sits at the loosest precedence level
and is grouped LEFT-associatively (diverging from standard C): the
assignment-level chain loop folds the `(operator, right-operand)` pairs it
consumes to the left starting from the first operand, and concretely
`a = b = c` parses as the tree `(a = b) = c`. -/
theorem assign_level_left_associative :
    (∀ (s : List Char) (fuel : Nat) (acc : Expr) (pos : Nat),
        (mkEP s fuel).chAssign acc pos =
          PRes.ok (foldBin acc (collectAssign s fuel pos).1)
            (collectAssign s fuel pos).2)
    ∧ parseExprFull "a = b = c" =
        some (Expr.binOp "="
          (Expr.binOp "=" (Expr.name "a") (Expr.name "b")) (Expr.name "c")) :=
  ⟨fun s => chAssign_foldl s, rfl⟩

/-- C3: the relational/equality operators `< == > <= >= !=` form one
left-associative, non-chaining tier: the relational chain loop folds its
consumed pairs to the left (every result is a nest of binary `binOp` nodes,
never a three-way chained comparison), and concretely `a == b == c` parses
as `(a == b) == c` and `a < b < c` as `(a < b) < c`. -/
theorem relational_level_left_associative :
    (∀ (s : List Char) (fuel : Nat) (acc : Expr) (pos : Nat),
        (mkEP s fuel).chRel acc pos =
          PRes.ok (foldBin acc (collectRel s fuel pos).1)
            (collectRel s fuel pos).2)
    ∧ parseExprFull "a == b == c" =
        some (Expr.binOp "=="
          (Expr.binOp "==" (Expr.name "a") (Expr.name "b")) (Expr.name "c"))
    ∧ parseExprFull "a < b < c" =
        some (Expr.binOp "<"
          (Expr.binOp "<" (Expr.name "a") (Expr.name "b")) (Expr.name "c")) :=
  ⟨fun s => chRel_foldl s, rfl, rfl⟩

/-- C4 counterexample: the claim states that `f()()` is not accepted as a
single expression by the `expr` rule, but it is accepted in full — the
first `()` is consumed by the `func_call` operand and the second by the one
trailing call suffix — producing `Call(Call(f, []), [])`. -/
theorem single_suffix_claim_counterexample :
    parseExprFull "f()()" =
      some (Expr.call (Expr.call (Expr.name "f") []) []) := rfl

/-- C4 (amended): after the operator-precedence expression the `expr` rule
consumes at most one trailing suffix — one subscript or one call — and
suffixes do not chain: `a[0][1]` and `f()()()` are not accepted as single
expressions, while `a[0]` and `f()` are; `f()()` is nevertheless accepted,
because its first `()` belongs to the function-call operand and only the
second is the suffix. -/
theorem single_trailing_suffix :
    parseExprFull "a[0][1]" = none
    ∧ parseExprFull "f()()()" = none
    ∧ parseExprFull "a[0]" =
        some (Expr.index (Expr.name "a") (Expr.intLit 0))
    ∧ parseExprFull "f()" = some (Expr.call (Expr.name "f") [])
    ∧ parseExprFull "f()()" =
        some (Expr.call (Expr.call (Expr.name "f") []) []) :=
  ⟨rfl, rfl, rfl, rfl, rfl⟩

/-- C5: the dangling `else` binds to the nearest `if`: parsing
`if (c) if (c2) s1; else s2;` yields an outer `IfStmt` with no else branch
whose then-branch is the inner `IfStmt` carrying the else branch — the
inner `if`'s greedy optional `else stmt` trailer consumes the `else`. -/
theorem dangling_else_binds_inner :
    parseStmtFull "if (a) if (b) x; else y;" =
      some (Stmt.ifS (Expr.name "a")
        (Stmt.ifS (Expr.name "b") (Stmt.exprS (Expr.name "x"))
          (some (Stmt.exprS (Expr.name "y"))))
        none)
    ∧ parseStmtFull "if (c) if (d) x = 1; else y = 2;" =
        some (Stmt.ifS (Expr.name "c")
          (Stmt.ifS (Expr.name "d")
            (Stmt.exprS (Expr.binOp "=" (Expr.name "x") (Expr.intLit 1)))
            (some (Stmt.exprS (Expr.binOp "=" (Expr.name "y") (Expr.intLit 2)))))
          none) :=
  ⟨rfl, rfl⟩

/-- C6: once `if`, `while`, `do` or `return` is consumed, failure of the
rest of the rule is a hard, position-carrying error that aborts the parse
instead of backtracking into later statement alternatives: `return;` is a
hard error at offset 6 even though the later `expr ;` alternative alone
would accept that very input (as the identifier-expression `return`);
`if x;` and `while;` are hard errors at the offset of the missing `(`;
and the error propagates through a whole program parse. -/
theorem keyword_commit_hard_error :
    parseStmtRes "return;" = PRes.err 6
    ∧ parseExprStmtRes "return;" =
        PRes.ok (Stmt.exprS (Expr.name "return")) 7
    ∧ parseStmtRes "if x;" = PRes.err 3
    ∧ parseStmtRes "while;" = PRes.err 5
    ∧ parseProgramStr "int f() \x7b return; \x7d" = PRes.err 16 :=
  ⟨rfl, rfl, rfl, rfl, rfl⟩

/-- C7: a top-level program parse must consume the entire input: whenever
the declaration phase succeeds but ignorable-skipping from its end position
still leaves unconsumed characters, the top-level parse is an error
carrying the offset of the first unconsumed character. -/
theorem program_requires_full_consumption (s : List Char) (ds : List Decl)
    (p : Nat) (h : parseDeclsPhase s = PRes.ok ds p)
    (hlt : skipAll s p < s.length) :
    parseProgramL s = PRes.err (skipAll s p) := by
  unfold parseProgramL
  rw [h]
  simp only
  rw [if_neg (by omega)]

/-- Witness for C7: `int x; $` parses its one declaration ending at offset
6, and the top-level parse is an incomplete-parse error at offset 7 — the
offset of the `$`. -/
theorem program_requires_full_consumption_witness :
    parseProgramL ("int x; $".toList) =
        PRes.err (skipAll ("int x; $".toList) 6)
    ∧ skipAll ("int x; $".toList) 6 = 7 :=
  ⟨program_requires_full_consumption ("int x; $".toList)
      [Decl.varD ⟨⟨"int", 0⟩, "x", none⟩] 6 rfl (by decide),
   rfl⟩

/-- C8: keyword matching respects word boundaries and takes priority over
identifier matching: whenever `pKeyword` succeeds, the character at the end
position is not an identifier-continuation character (so `ifx` and
`integer` can never match the keywords `if` and `int`); concretely `ifx;`
and `integer;` parse as single-identifier expression statements while
`if(a)x;` parses as an if-statement (the keyword alternative is tried
before the identifier-based expression alternative), and the keyword
matcher rejects `if` when followed by `x`. -/
theorem keyword_boundary_and_priority :
    (∀ (s : List Char) (kw : String) (pos : Nat) (v : String) (p' : Nat),
        pKeyword kw s pos = PRes.ok v p' → isKwBodyChar (charAt s p') = false)
    ∧ parseStmtRes "ifx;" = PRes.ok (Stmt.exprS (Expr.name "ifx")) 4
    ∧ parseStmtFull "integer;" = some (Stmt.exprS (Expr.name "integer"))
    ∧ parseStmtFull "if(a)x;" =
        some (Stmt.ifS (Expr.name "a") (Stmt.exprS (Expr.name "x")) none)
    ∧ pKeyword "if" ("ifx;".toList) 0 = PRes.fail 0 :=
  ⟨fun s kw pos v p' h => pKeyword_ok_boundary s kw pos v p' h,
   rfl, rfl, rfl, rfl⟩

/-- Witness for C8: applying the boundary property at the concrete
successful keyword match of `if` in `if x;` (ending at offset 2, whose
following character is a space). -/
theorem keyword_boundary_and_priority_witness :
    isKwBodyChar (charAt ("if x;".toList) 2) = false :=
  keyword_boundary_and_priority.1 ("if x;".toList) "if" 0 "if" 2 rfl

/-- C9: parsing is deterministic (the model is a pure function, so two runs
on the same text coincide definitionally), and parse-serialize-parse is
AST-stable on a concrete valid subset-C program: `c9Src` parses to `c9AST`,
and reparsing `programStr c9AST` reproduces exactly `c9AST`. -/
theorem parse_deterministic_and_roundtrip_stable :
    (∀ str : String, parseProgramStr str = parseProgramStr str)
    ∧ parseProgramOk c9Src = some c9AST
    ∧ parseProgramOk (programStr c9AST) = some c9AST :=
  ⟨fun _ => rfl, rfl, rfl⟩

/-- C10: the variable-declaration rule accepts signed array bounds, because
the array-size slot reuses the `integer` token whose pattern allows an
optional leading sign: `int a[-5];`, `char b[+3];` and `int c[0];` all
parse successfully as array declarations with the signed size recorded,
and the integer token itself accepts a leading `-`. -/
theorem vardecl_accepts_signed_array_size :
    parseProgramOk "int a[-5];" =
        some [Decl.varD ⟨⟨"int", 0⟩, "a", some (-5)⟩]
    ∧ parseProgramOk "char b[+3];" =
        some [Decl.varD ⟨⟨"char", 0⟩, "b", some 3⟩]
    ∧ parseProgramOk "int c[0];" =
        some [Decl.varD ⟨⟨"int", 0⟩, "c", some 0⟩]
    ∧ pInteger ("-5".toList) 0 = PRes.ok (-5) 2 :=
  ⟨rfl, rfl, rfl, rfl⟩

end SubsetC
